import Mathlib

/-!
Verification development for the election-result extraction pipeline
(`scripts/extractors/` of the ulster-elections repository).

The Python source is shallowly embedded: each Python function used by the
checked claims is translated into an executable Lean definition operating on
`String` / `List` values.  Python `str` methods are modelled by the `py*`
helpers below; Python `int` is modelled by `Int`; `None`-able table cells by
`Option String`.
-/

namespace Elections

/-! ## Python string primitives -/

/-- ASCII whitespace, as recognised by Python `str.strip` / `str.split` on the
documents this pipeline handles. -/
def isPyWs (c : Char) : Bool :=
  c = ' ' || c = '\t' || c = '\n' || c = '\r' || c = '\x0b' || c = '\x0c'

/-- Python `str.strip()`. -/
def pyStrip (s : String) : String :=
  ⟨(s.data.dropWhile isPyWs).reverse.dropWhile isPyWs |>.reverse⟩

/-- Python `str.lower()` (ASCII). -/
def pyLower (s : String) : String :=
  ⟨s.data.map Char.toLower⟩

/-- Python `str.upper()` (ASCII). -/
def pyUpper (s : String) : String :=
  ⟨s.data.map Char.toUpper⟩

/-- Python `str.title()` (ASCII): first letter of each alphabetic run is
upper-cased, the rest lower-cased. -/
def pyTitleAux : List Char → Bool → List Char
  | [], _ => []
  | c :: cs, prevAlpha =>
    if c.isAlpha then
      (if prevAlpha then c.toLower else c.toUpper) :: pyTitleAux cs true
    else
      c :: pyTitleAux cs false

/-- Python `str.title()`. -/
def pyTitle (s : String) : String :=
  ⟨pyTitleAux s.data false⟩

/-- Python whitespace-splitting `str.split()`: no empty pieces. -/
def pySplitWsAux : List Char → List Char → List String
  | [], acc => if acc = [] then [] else [⟨acc.reverse⟩]
  | c :: cs, acc =>
    if isPyWs c then
      if acc = [] then pySplitWsAux cs []
      else ⟨acc.reverse⟩ :: pySplitWsAux cs []
    else pySplitWsAux cs (c :: acc)

/-- Python `str.split()` with no separator argument. -/
def pySplitWs (s : String) : List String :=
  pySplitWsAux s.data []

/-- `' '.join(words)` and friends. -/
def pyJoin (sep : String) : List String → String
  | [] => ""
  | [x] => x
  | x :: xs => x ++ sep ++ pyJoin sep xs

/-- `pat` occurs as a contiguous sublist of `cs`. -/
def listHasInfix (cs pat : List Char) : Bool :=
  pat.isPrefixOf cs ||
    match cs with
    | [] => false
    | _ :: rest => listHasInfix rest pat

/-- Python `sub in s` (substring containment). -/
def pyContains (s sub : String) : Bool :=
  listHasInfix s.data sub.data

/-- Python `s.startswith(p)`. -/
def pyStartswith (s p : String) : Bool :=
  p.data.isPrefixOf s.data

/-- Python `s.endswith(p)`. -/
def pyEndswith (s p : String) : Bool :=
  p.data.isSuffixOf s.data

/-- Python `s[::-1]`. -/
def strRev (s : String) : String :=
  ⟨s.data.reverse⟩

/-- Python `s.isdigit()` (ASCII digits). -/
def pyIsdigit (s : String) : Bool :=
  !s.data.isEmpty && s.data.all Char.isDigit

/-- Python `s.isalpha()` (ASCII letters; the documents are ASCII). -/
def pyIsalpha (s : String) : Bool :=
  !s.data.isEmpty && s.data.all Char.isAlpha

def digitsToNat (cs : List Char) : Nat :=
  cs.foldl (fun n c => n * 10 + (c.toNat - '0'.toNat)) 0

/-- Python `int(s)` for a string already checked with `isdigit()`. -/
def pyIntOfDigits (s : String) : Int :=
  (digitsToNat s.data : Int)

/-- Python `int(s)` success cases: surrounding whitespace, an optional sign
and a non-empty digit run; `none` models a `ValueError`. -/
def pyIntStrict (s : String) : Option Int :=
  let t := pyStrip s
  match t.data with
  | '-' :: ds =>
    if ds ≠ [] ∧ ds.all Char.isDigit then some (-(digitsToNat ds : Int)) else none
  | '+' :: ds =>
    if ds ≠ [] ∧ ds.all Char.isDigit then some (digitsToNat ds : Int) else none
  | ds =>
    if ds ≠ [] ∧ ds.all Char.isDigit then some (digitsToNat ds : Int) else none

/-- Python `int(s)` at call sites that neither check `isdigit()` first nor
catch `ValueError`: totalised to `0` on failure (the checked claims only
exercise inputs on which `int()` succeeds). -/
def pyInt (s : String) : Int :=
  (pyIntStrict s).getD 0

/-- Python `str(i)` for an `int`. -/
def intStr (i : Int) : String :=
  if i < 0 then "-" ++ Nat.repr i.natAbs else Nat.repr i.natAbs

/-- Replace every occurrence of the non-empty pattern `s0 :: srest` by
`repl`, left to right, non-overlapping.  The fuel dominates the input length
(each step consumes at least one character), keeping the recursion
structural so that the kernel can evaluate it. -/
def replaceAux (s0 : Char) (srest repl : List Char) :
    Nat → List Char → List Char
  | 0, cs => cs
  | _ + 1, [] => []
  | fuel + 1, c :: cs =>
    if c = s0 ∧ srest.isPrefixOf cs then
      repl ++ replaceAux s0 srest repl fuel (cs.drop srest.length)
    else c :: replaceAux s0 srest repl fuel cs

/-- Python `s.replace(a, b)` (all occurrences, left to right; the empty
pattern never occurs in the embedded code). -/
def pyReplace (s a b : String) : String :=
  match a.data with
  | [] => s
  | s0 :: srest => ⟨replaceAux s0 srest b.data s.data.length s.data⟩

/-- Split at every occurrence of the non-empty separator `s0 :: srest`;
fuel as in `replaceAux`. -/
def splitOnAux (s0 : Char) (srest : List Char) :
    Nat → List Char → List Char → List (List Char)
  | 0, cs, acc => [acc.reverse ++ cs]
  | _ + 1, [], acc => [acc.reverse]
  | fuel + 1, c :: cs, acc =>
    if c = s0 ∧ srest.isPrefixOf cs then
      acc.reverse :: splitOnAux s0 srest fuel (cs.drop srest.length) []
    else splitOnAux s0 srest fuel cs (c :: acc)

/-- Python `s.split(sep)` for a non-empty separator. -/
def pySplitOn (s sep : String) : List String :=
  match sep.data with
  | [] => [s]
  | s0 :: srest =>
    (splitOnAux s0 srest s.data.length s.data []).map (fun cs => ⟨cs⟩)

/-- Python `s.splitlines()` for text whose line breaks are `\n`: like
`split("\n")` but without a trailing empty piece. -/
def pySplitlines (s : String) : List String :=
  if s = "" then []
  else
    let ps := pySplitOn s "\n"
    if ps.getLast? = some "" then ps.dropLast else ps

/-- Drop the first `n` characters, Python `s[n:]`. -/
def pyDrop (s : String) (n : Nat) : String :=
  ⟨s.data.drop n⟩

/-- Position of the last occurrence of non-empty `pat` in `cs`, if any. -/
def lastOccAux (cs pat : List Char) (i : Nat) (best : Option Nat) : Option Nat :=
  match cs with
  | [] => best
  | _ :: rest =>
    let best' := if pat.isPrefixOf cs then some i else best
    lastOccAux rest pat (i + 1) best'

/-- Python `s.rsplit(sep, 1)` for a non-empty separator that occurs in `s`:
the pieces before and after the last occurrence. -/
def pyRsplitOnce (s sep : String) : Option (String × String) :=
  match lastOccAux s.data sep.data 0 none with
  | some i => some (⟨s.data.take i⟩, ⟨s.data.drop (i + sep.data.length)⟩)
  | none => none

/-- Python `s.rsplit(maxsplit=1)` (whitespace): split at the last whitespace
run, ignoring trailing whitespace.  Returns `none` when there is no split
(one piece). -/
def pyRsplitWsOnce (s : String) : Option (String × String) :=
  let cs := s.data.reverse.dropWhile isPyWs
  let tail := cs.takeWhile (fun c => !isPyWs c)
  let rest := cs.drop tail.length
  if rest.isEmpty then none
  else some (⟨(rest.dropWhile isPyWs).reverse⟩, ⟨tail.reverse⟩)

/-! ## Canonical party table (`extractors/parties.py`) -/

/-- `PARTY_ALIASES` from `parties.py`: canonical party name to its aliases,
in source order. -/
def PARTY_ALIASES : List (String × List String) :=
  [("democratic", ["dem", "d", "democrat", "democrats"]),
   ("republican", ["rep", "r", "gop", "republicans"]),
   ("conservative", ["con", "c", "conservatives"]),
   ("working families", ["wfp", "wf", "working families party", "working"]),
   ("independence", ["ind", "i"]),
   ("green", ["gre", "g", "greens"]),
   ("libertarian", ["lib", "l", "libertarians"]),
   ("write-in", ["wri", "w", "write in", "writein"]),
   ("community 1st", ["community first", "community"]),
   ("larouche", [])]

/-- `CANONICAL_PARTIES` from `parties.py`: canonical name to display name. -/
def CANONICAL_PARTIES : List (String × String) :=
  [("democratic", "Democratic"),
   ("republican", "Republican"),
   ("conservative", "Conservative"),
   ("working families", "Working Families"),
   ("independence", "Independence"),
   ("green", "Green"),
   ("libertarian", "Libertarian"),
   ("write-in", "Write-In"),
   ("community 1st", "Community 1st"),
   ("larouche", "LaRouche")]

/-- `normalize_party` from `parties.py`. -/
def normalize_party (raw : String) : String :=
  let normalized := pyLower (pyStrip raw)
  if (CANONICAL_PARTIES.lookup normalized).isSome then normalized
  else
    match PARTY_ALIASES.find? (fun p => p.2.contains normalized) with
    | some p => p.1
    | none => normalized

/-- `get_display_name` from `parties.py`. -/
def get_display_name (canonical : String) : String :=
  match CANONICAL_PARTIES.lookup (pyLower canonical) with
  | some d => d
  | none => pyTitle canonical

/-- `is_known_party` from `parties.py`. -/
def is_known_party (party : String) : Bool :=
  let normalized := pyLower (pyStrip party)
  (CANONICAL_PARTIES.lookup normalized).isSome ||
    PARTY_ALIASES.any (fun p => p.2.contains normalized)

/-! ## Mirrored-text repair (`extractors/pdf_text_fixer.py`) -/

/-- The curated `rare_starts` list of `_is_word_likely_mirrored`: mirrored
tokens previously observed in the Westchester PDFs, matched as prefixes. -/
def rare_starts : List String :=
  ["NYLAREHS", "NAMDOOG", "REVLUP", "AHLITSAP", "DRAHCIR",
   "WALNI", "NAVE", "RALUGERRI", "SSAVNAC", "LATOT", "DIOV",
   "KNALB", "TOLLAB", "DWT", "AVAF"]

/-- The letters accepted for a doubled start,
`'NMLRSTABCDEFGHIJKLPQUVWXYZ'` in the source (note: `O` is absent). -/
def doubledLetters : List Char :=
  "NMLRSTABCDEFGHIJKLPQUVWXYZ".data

/-- The name-suffix tuple tested against the character-reversal. -/
def mirrorSuffixes : List String :=
  ["MAN", "SON", "VER", "TON", "LER", "HAM", "ANN", "VAN"]

/-- The curated-pattern branch of `_is_word_likely_mirrored`:
`any(word_upper.startswith(pattern) for pattern in rare_starts)`. -/
def matchesCurated (wordUpper : String) : Bool :=
  rare_starts.any (fun pat => pyStartswith wordUpper pat)

/-- The doubled-letter heuristic branch of `_is_word_likely_mirrored`:
doubled first letter from the accepted set, and the character-reversal ends
in one of the common name suffixes. -/
def doubledHeuristic (wordUpper : String) : Bool :=
  match wordUpper.data with
  | c0 :: c1 :: _ =>
    c0 = c1 && doubledLetters.contains c0 &&
      mirrorSuffixes.any (fun suf => pyEndswith (strRev wordUpper) suf)
  | _ => false

/-- `_is_word_likely_mirrored` from `pdf_text_fixer.py`. -/
def is_word_likely_mirrored (word : String) : Bool :=
  if word.length < 4 || !pyIsalpha word then false
  else
    let wordUpper := pyUpper word
    if matchesCurated wordUpper then true
    else if 4 ≤ word.length then doubledHeuristic wordUpper
    else false

/-- The per-token body of the word loop in `_fix_mirrored_words`: hyphenated
tokens are repaired per hyphen segment, other tokens are reversed when they
are longer than 3 characters, alphabetic and judged likely mirrored. -/
def fixWord (word : String) : String :=
  if pyContains word "-" then
    pyJoin "-" ((pySplitOn word "-").map (fun part =>
      if 3 < part.length && pyIsalpha part && is_word_likely_mirrored part
      then strRev part else part))
  else if 3 < word.length && pyIsalpha word && is_word_likely_mirrored word
  then strRev word
  else word

/-- `_fix_mirrored_words` from `pdf_text_fixer.py`. -/
def fix_mirrored_words (text : String) : String :=
  pyJoin "\n" ((pySplitlines text).map (fun line =>
    pyJoin " " ((pySplitWs line).map fixWord)))

/-- `re.sub(r'\s+', ' ', s)`: collapse each maximal whitespace run to one
space. -/
def collapseWs (s : String) : String :=
  ⟨s.data.foldr
    (fun c acc =>
      if isPyWs c then (if acc.head? = some ' ' then acc else ' ' :: acc)
      else c :: acc)
    []⟩

/-- `PrecinctTableParser._fix_vertical_text` from `parsers.py`: reverse the
bottom-to-top emission order, join, space out periods and slashes, collapse
whitespace. -/
def fix_vertical_text (text : String) : String :=
  let parts := ((pySplitOn text "\n").map pyStrip).filter (fun p => p ≠ "")
  let joined := String.join parts.reverse
  let j1 := pyReplace joined "." ". "
  let j2 := pyReplace j1 "/" " / "
  pyStrip (collapseWs j2)

/-! ## Race / candidate / party-line records (the parsers' output schema) -/

structure PartyLine where
  party : String
  votes : Int
deriving Repr, DecidableEq

structure Candidate where
  name : String
  party_lines : List PartyLine
  total_votes : Int
deriving Repr, DecidableEq

structure Race where
  race_title : String
  vote_for : Int
  candidates : List Candidate
  write_in : Int
  total_votes_cast : Int
  under_votes : Int
  over_votes : Int
  total_ballots_cast : Int
deriving Repr, DecidableEq

/-- Python `dict` assignment `d[k] = v`: replaces in place when the key is
present, appends otherwise (insertion order is preserved, as in CPython). -/
def pyDictUpdate (d : List (String × α)) (k : String) (v : α) : List (String × α) :=
  if (d.lookup k).isSome then d.map (fun p => if p.1 = k then (k, v) else p)
  else d ++ [(k, v)]

/-- The `if k not in d: d[k] = init` followed by in-place mutation of `d[k]`
idiom used by the parsers. -/
def pyDictModify (d : List (String × α)) (k : String) (init : α) (f : α → α) :
    List (String × α) :=
  match d.lookup k with
  | some v => d.map (fun p => if p.1 = k then (k, f v) else p)
  | none => d ++ [(k, f init)]

/-! ## Precinct-table parser (`PrecinctTableParser` in `parsers.py`) -/

/-- The office-name keywords scanned for by
`PrecinctTableParser._extract_race_title`. -/
def precinct_keywords : List String :=
  ["PRESIDENT", "SENATOR", "GOVERNOR", "REPRESENTATIVE",
   "ASSEMBLY", "JUSTICE", "JUDGE", "DISTRICT ATTORNEY",
   "CORONER", "CLERK", "SUPERVISOR", "COUNCIL"]

/-- The county-name starts removed from a detected title. -/
def precinct_county_starts : List String :=
  ["PUTNAM COUNTY", "WESTCHESTER COUNTY"]

def stripCountyStart (title : String) : String :=
  precinct_county_starts.foldl
    (fun t p => if pyStartswith t p then pyStrip (pyDrop t p.data.length) else t)
    title

/-- `PrecinctTableParser._extract_race_title`. -/
def extract_race_title (text : String) : Option String :=
  let lines := ((pySplitOn text "\n").map pyStrip).filter (fun l => l ≠ "")
  (lines.take 10).findSome? (fun line =>
    if pyContains line "GENERAL ELECTION" || pyContains line "November" ||
        pyContains line "VOTE FOR" then none
    else if precinct_keywords.any (fun k => pyContains (pyUpper line) k) then
      some (stripCountyStart line)
    else none)

structure ColumnInfo where
  index : Nat
  name : String
  party : String
deriving Repr, DecidableEq

/-- Westchester candidate-name repair in `_parse_column_headers`: a literal
slash part is kept verbatim, every other part has each word reversed when
`_is_word_likely_mirrored` judges it mirrored. -/
def fixNamePart (part : String) : String :=
  if part = "/" then part
  else pyJoin " " ((pySplitWs part).map
    (fun w => if is_word_likely_mirrored w then strRev w else w))

/-- `cell.strip() if cell else ''`: a `None` or empty cell becomes `''`. -/
def cellStr (c : Option String) : String :=
  pyStrip (c.getD "")

/-- One column of `_parse_column_headers`. -/
def columnOfPair (westchester : Bool) (i : Nat) (hc nc : Option String) :
    Option ColumnInfo :=
  let party := if westchester then cellStr hc else cellStr nc
  let candidate_text := if westchester then cellStr nc else cellStr hc
  if party = "" || !is_known_party party then none
  else if candidate_text = "" then none
  else
    let candidate_name :=
      if westchester then
        pyJoin " "
          ((((pySplitOn candidate_text "\n").map pyStrip).filter
            (fun q => q ≠ "")).map fixNamePart)
      else fix_vertical_text candidate_text
    some ⟨i, candidate_name, get_display_name (normalize_party party)⟩

/-- `PrecinctTableParser._parse_column_headers`. -/
def parse_column_headers (header_row party_row : List (Option String)) :
    List ColumnInfo :=
  let westchester := header_row.any (fun c =>
    (c.getD "") ≠ "" && is_known_party (pyStrip (c.getD "")))
  ((header_row.zip party_row).enum).filterMap
    (fun p => columnOfPair westchester p.1 p.2.1 p.2.2)

/-- One page of a precinct-table PDF as the parser sees it: the repaired
page text and the extracted table grids (cells are `str` or `None`). -/
structure PrecinctPage where
  text : String
  tables : List (List (List (Option String)))

/-- The TOTAL-row candidate update for one retained column. -/
def applyTotalRowCol (row : List (Option String))
    (d : List (String × Candidate)) (col : ColumnInfo) :
    List (String × Candidate) :=
  match row.get? col.index with
  | some (some cellv) =>
    if cellv ≠ "" then
      let votes_str := pyStrip (pyReplace cellv "," "")
      if pyIsdigit votes_str then
        let votes := pyIntOfDigits votes_str
        pyDictModify d col.name ⟨col.name, [], 0⟩ (fun c =>
          { c with
            party_lines := c.party_lines ++
              (if col.party ≠ "" then [⟨col.party, votes⟩] else []),
            total_votes := c.total_votes + votes })
      else d
    else d
  | _ => d

/-- First numeric cell among columns `1 .. min(5, len(row)) - 1` of a
summary row. -/
def summaryValue (row : List (Option String)) : Option Int :=
  (List.range' 1 (min 5 row.length - 1)).findSome? (fun idx =>
    match row.get? idx with
    | some (some c) =>
      if c ≠ "" then
        let cs := pyStrip (pyReplace c "," "")
        if pyIsdigit cs then some (pyIntOfDigits cs) else none
      else none
    | _ => none)

/-- Label-substring dispatch for a summary row below the TOTAL row. -/
def applySummaryLabel (race : Race) (label : String) (value : Int) : Race :=
  if pyContains label "BLANK" then { race with under_votes := value }
  else if pyContains label "VOID" then { race with over_votes := value }
  else if pyContains label "SCATTERING" || pyContains label "WRITE" then
    { race with write_in := value }
  else if pyContains label "TOTAL" && pyContains label "VOTE" then
    { race with total_votes_cast := value }
  else if pyContains label "TOTAL" && pyContains label "BALLOT" then
    { race with total_ballots_cast := value }
  else race

/-- The scan of rows `row_idx+1 .. min(row_idx+10, len(table))-1` for
BLANK / VOID / SCATTERING / TOTAL summary labels. -/
def scanSummaryRows (table : List (List (Option String))) (rowIdx : Nat)
    (race : Race) : Race :=
  (List.range' (rowIdx + 1) (min (rowIdx + 10) table.length - (rowIdx + 1))).foldl
    (fun r idx =>
      match table.get? idx with
      | some srow =>
        match srow.head?.getD none with
        | some s0 =>
          if s0 ≠ "" then
            let label := pyUpper (pyStrip s0)
            match summaryValue srow with
            | some v => applySummaryLabel r label v
            | none => r
          else r
        | none => r
      | none => r)
    race

/-- The body of the data-row loop of `PrecinctTableParser._parse_races`: a row
whose first cell contains "TOTAL" feeds the candidate totals and triggers the
summary scan; every other row is skipped.  (`row[0]` assumes a non-empty row,
as in the extracted tables.) -/
def processDataRow (columns : List ColumnInfo)
    (table : List (List (Option String))) (rowIdx : Nat)
    (st : Race × List (String × Candidate)) :
    Race × List (String × Candidate) :=
  match table.get? rowIdx with
  | none => st
  | some row =>
    match row.head?.getD none with
    | some r0 =>
      if r0 ≠ "" && pyContains (pyUpper r0) "TOTAL" then
        let d := columns.foldl (applyTotalRowCol row) st.2
        let r := scanSummaryRows table rowIdx st.1
        (r, d)
      else st
    | none => st

structure PrecinctState where
  races : List Race
  current_race : Option Race
  current_race_title : Option String
  candidate_totals : List (String × Candidate)

def flushRaceDict (cur : Option Race)
    (totals : List (String × Candidate)) : List Race :=
  match cur with
  | some r => [{ r with candidates := totals.map Prod.snd }]
  | none => []

/-- One page of `PrecinctTableParser._parse_races`. -/
def processPrecinctPage (st : PrecinctState) (page : PrecinctPage) :
    PrecinctState :=
  match extract_race_title page.text with
  | none => st
  | some race_title =>
    let st1 : PrecinctState :=
      if st.current_race_title = some race_title then st
      else
        { races := st.races ++ flushRaceDict st.current_race st.candidate_totals,
          current_race := some
            { race_title := race_title, vote_for := 1, candidates := [],
              write_in := 0, total_votes_cast := 0, under_votes := 0,
              over_votes := 0, total_ballots_cast := 0 },
          current_race_title := some race_title,
          candidate_totals := [] }
    match page.tables.head? with
    | none => st1
    | some table =>
      if table.length < 3 then st1
      else
        let header_row := table.head?.getD []
        let party_row := (table.get? 1).getD []
        let columns := parse_column_headers header_row party_row
        match st1.current_race with
        | some race =>
          let res := (List.range' 2 (table.length - 2)).foldl
            (fun acc idx => processDataRow columns table idx acc)
            (race, st1.candidate_totals)
          { st1 with current_race := some res.1, candidate_totals := res.2 }
        | none => st1

/-- `PrecinctTableParser._parse_races`. -/
def precinctParseRaces (pages : List PrecinctPage) : List Race :=
  let st := pages.foldl processPrecinctPage ⟨[], none, none, []⟩
  st.races ++ flushRaceDict st.current_race st.candidate_totals

/-! ## Canvass-narrative parser (`CanvassPDFParser` in `parsers.py`) -/

/-- `CanvassPDFParser._is_header_line` header substrings. -/
def canvass_headers : List String :=
  ["Statement of the County Board of Canvassers", "Orange County",
   "2024 General Election", "November", "to canvass the votes"]

def canvassIsHeader (line : String) : Bool :=
  canvass_headers.any (fun h => pyContains line h)

/-- The token scan of a `"Name Party received votes"` line: tokens are taken
from the end, and a token joins the party phrase exactly when extending the
phrase with it still names a known party.  (In the source the redundant
`found_party` flag selects between branches with identical effect.) -/
def scanPartyTokens : List String → List String × List String → List String × List String
  | [], acc => acc
  | tok :: rest, acc =>
    if is_known_party (pyJoin " " (tok :: acc.2)) then
      scanPartyTokens rest (acc.1, tok :: acc.2)
    else
      scanPartyTokens rest (tok :: acc.1, acc.2)

/-- An empty race accumulator, as created by the canvass parser
(`vote_for` defaults to 1). -/
def newCanvassRace (title : String) : Race :=
  { race_title := title, vote_for := 1, candidates := [], write_in := 0,
    total_votes_cast := 0, under_votes := 0, over_votes := 0,
    total_ballots_cast := 0 }

/-- The regular-candidate update of the `" received "` branch: resolve the
party phrase from the end of the prefix and attach a party line to the
(possibly new) candidate, accumulating its declared total. -/
def canvassRegularCandidate (d : List (String × Candidate))
    (prefixStr : String) (votes : Int) : List (String × Candidate) :=
  let np := scanPartyTokens (pySplitWs prefixStr).reverse ([], [])
  if np.1 ≠ [] ∧ np.2 ≠ [] then
    let name := pyJoin " " np.1
    let display := get_display_name (normalize_party (pyJoin " " np.2))
    pyDictModify d name ⟨name, [], 0⟩ (fun c =>
      { c with party_lines := c.party_lines ++ [⟨display, votes⟩],
               total_votes := c.total_votes + votes })
  else d

/-- The write-in update of the `" received "` branch: the
`"Write-in - <name>"` key is kept as the candidate identity. -/
def canvassWriteInCandidate (d : List (String × Candidate))
    (prefixStr : String) (votes : Int) : List (String × Candidate) :=
  let name := pyStrip (pyReplace prefixStr "Write-in -" "")
  let key := "Write-in - " ++ name
  pyDictUpdate d key ⟨key, [], votes⟩

/-- The whole `" received "` branch of `CanvassPDFParser._parse_races`. -/
def canvassReceivedLine (d : List (String × Candidate)) (line : String) :
    List (String × Candidate) :=
  let parts := pySplitOn line " received "
  if parts.length = 2 then
    let prefixStr := pyStrip (parts.headD "")
    let votes_str := pyReplace (pyStrip (parts.getLastD "")) "," ""
    if pyIsdigit votes_str then
      let votes := pyIntOfDigits votes_str
      if pyStartswith prefixStr "Write-in -" then
        canvassWriteInCandidate d prefixStr votes
      else canvassRegularCandidate d prefixStr votes
    else d
  else d

structure CanvassState where
  races : List Race
  current_race : Option Race
  candidate_dict : List (String × Candidate)
  pending_race_start : Bool

/-- The summary / candidate branches of the canvass line loop, reached when a
race is open.  `prev` is the raw preceding line of the page (`lines[i-1]`,
present exactly when `i > 0`). -/
def canvassOpenRaceStep (st : CanvassState) (race : Race)
    (prev : Option String) (line : String) : CanvassState :=
  if line = "Blank" ∧ prev.isSome then
    let pl := pyReplace (pyStrip (prev.getD "")) "," ""
    if pyIsdigit pl then
      { st with current_race := some { race with under_votes := pyIntOfDigits pl } }
    else st
  else if line = "Void" ∧ prev.isSome then
    let pl := pyReplace (pyStrip (prev.getD "")) "," ""
    if pyIsdigit pl then
      { st with current_race := some { race with over_votes := pyIntOfDigits pl } }
    else st
  else if pyStartswith line "Scattering" ∧ prev.isSome then
    let pl := pyReplace (pyStrip (prev.getD "")) "," ""
    if pyIsdigit pl then
      { st with current_race := some { race with write_in := pyIntOfDigits pl } }
    else st
  else if pyStartswith line "Total Votes" then
    let parts := pySplitWs line
    if 3 ≤ parts.length then
      let r2 := { race with total_votes_cast := pyInt (pyReplace (parts.getLastD "") "," "") }
      { st with current_race := some r2 }
    else st
  else if pyStartswith line "Total Ballots Cast" then
    let parts := pySplitWs line
    if 4 ≤ parts.length then
      let r2 := { race with total_ballots_cast := pyInt (pyReplace (parts.getLastD "") "," "") }
      { st with current_race := some r2 }
    else st
  else if pyContains line " received " then
    { st with candidate_dict := canvassReceivedLine st.candidate_dict line }
  else st

/-- One line of `CanvassPDFParser._parse_races`. -/
def canvassStep (st : CanvassState) (prev : Option String) (rawLine : String) :
    CanvassState :=
  let line := pyStrip rawLine
  if line = "" || canvassIsHeader line then st
  else if pyContains line "the office of" then
    { st with pending_race_start := true }
  else if st.pending_race_start ∧ pyContains line ", was" then
    let race_title := pyStrip ((pySplitOn line ", was").headD "")
    { races := st.races ++ flushRaceDict st.current_race st.candidate_dict,
      current_race := some (newCanvassRace race_title),
      candidate_dict := [],
      pending_race_start := false }
  else
    match st.current_race with
    | none => st
    | some race => canvassOpenRaceStep st race prev line

def canvassLines : CanvassState → Option String → List String → CanvassState
  | st, _, [] => st
  | st, prev, l :: rest => canvassLines (canvassStep st prev l) (some l) rest

/-- `CanvassPDFParser._parse_races`, over the per-page repaired texts. -/
def canvassParseRaces (pageTexts : List String) : List Race :=
  let st := pageTexts.foldl
    (fun st text => canvassLines st none (pySplitOn text "\n"))
    ⟨[], none, [], false⟩
  st.races ++ flushRaceDict st.current_race st.candidate_dict

/-! ## Standard text-layout parser (`StandardPDFParser` in `parsers.py`) -/

/-- `StandardPDFParser._is_header_line` header substrings. -/
def standard_headers : List String :=
  ["Columbia County", "Dutchess County Summary",
   "2025 General Election", "Summary Results Report",
   "Last Updated:"]

def standardIsHeader (line : String) : Bool :=
  standard_headers.any (fun h => pyContains line h) ||
    pyStartswith line "November 04, 2025"

/-- `re.search(r'Vote For (\d+)', text)`: first position where `"Vote For "`
is followed by at least one digit; captures the maximal digit run. -/
def voteForSearch : List Char → Option Nat
  | [] => none
  | c :: rest =>
    let here :=
      if "Vote For ".data.isPrefixOf (c :: rest) then
        let ds := ((c :: rest).drop 9).takeWhile Char.isDigit
        if ds ≠ [] then some (digitsToNat ds) else none
      else none
    match here with
    | some n => some n
    | none => voteForSearch rest

/-- `StandardPDFParser._extract_vote_for`. -/
def extract_vote_for (text : String) : Option Int :=
  (voteForSearch text.data).map Int.ofNat

/-- `StandardPDFParser._parse_summary_line`: returns whether the line was a
summary statistic, together with the updated race. -/
def parse_summary_line (line : String) (race : Race) : Bool × Race :=
  if pyStartswith line "Write-in" then
    let parts := pySplitWs line
    (true, if 2 ≤ parts.length then
      { race with write_in := pyInt (pyReplace (parts.getLastD "") "," "") } else race)
  else if pyStartswith line "Total Votes Cast" then
    let parts := pySplitWs line
    (true, if 4 ≤ parts.length then
      { race with total_votes_cast := pyInt (pyReplace (parts.getLastD "") "," "") } else race)
  else if pyStartswith line "Under Votes" then
    let parts := pySplitWs line
    (true, if 3 ≤ parts.length then
      { race with under_votes := pyInt (pyReplace (parts.getLastD "") "," "") } else race)
  else if pyStartswith line "Over Votes" then
    let parts := pySplitWs line
    (true, if 3 ≤ parts.length then
      { race with over_votes := pyInt (pyReplace (parts.getLastD "") "," "") } else race)
  else if pyStartswith line "Total Ballots Cast" then
    let parts := pySplitWs line
    (true, if 4 ≤ parts.length then
      { race with total_ballots_cast := pyInt (pyReplace (parts.getLastD "") "," "") } else race)
  else (false, race)

/-- `StandardPDFParser._parse_candidate_line`: longest (two-token) party
phrase first, then the one-token form. -/
def parse_candidate_line (prefixStr : String) (votes : Int) : Option Candidate :=
  let tokens := pySplitWs prefixStr
  let two : Option Candidate :=
    if 3 ≤ tokens.length then
      let potential := pyJoin " " (tokens.drop (tokens.length - 2))
      if is_known_party potential then
        some ⟨pyJoin " " (tokens.take (tokens.length - 2)),
              [⟨get_display_name (normalize_party potential), votes⟩], votes⟩
      else none
    else none
  match two with
  | some c => some c
  | none =>
    if 2 ≤ tokens.length then
      let potential := tokens.getLastD ""
      if is_known_party potential then
        some ⟨pyJoin " " tokens.dropLast,
              [⟨get_display_name (normalize_party potential), votes⟩], votes⟩
      else none
    else none

def newStandardRace (title : String) (vf : Int) : Race :=
  { race_title := title, vote_for := vf, candidates := [], write_in := 0,
    total_votes_cast := 0, under_votes := 0, over_votes := 0,
    total_ballots_cast := 0 }

/-- Append the pending candidate, if any, to a race's candidate list. -/
def flushCandidate (r : Race) (c : Option Candidate) : Race :=
  match c with
  | some cand => { r with candidates := r.candidates ++ [cand] }
  | none => r

structure StandardState where
  races : List Race
  current_race : Option Race
  current_candidate : Option Candidate
  in_race : Bool

def appendCandidate (st : StandardState) (race : Race) (c : Candidate) :
    StandardState :=
  { st with current_race := some { race with candidates := race.candidates ++ [c] } }

/-- Python `t[0].isupper()` under the `if t` guard of the generator (empty
tokens are skipped, i.e. count as capitalised). -/
def headIsUpper (t : String) : Bool :=
  match t.data with
  | c :: _ => c.isUpper
  | [] => true

/-- The `"text votes"` branches at the end of the standard line loop:
YES/NO propositions, write-ins, party lines, inline-party candidates and the
all-capitalised fallback. -/
def standardVotesLine (st : StandardState) (race : Race) (line : String) :
    StandardState :=
  match pyRsplitWsOnce line with
  | none => st
  | some pv =>
    let prefixStr := pv.1
    let votes_str := pyReplace pv.2 "," ""
    if pyIsdigit votes_str then
      let votes := pyIntOfDigits votes_str
      if ["YES", "NO", "Yes", "No"].contains prefixStr then
        appendCandidate st race ⟨prefixStr, [], votes⟩
      else if pyContains prefixStr "(Write-In)" || pyContains prefixStr "(Write-in)" then
        let name := pyStrip (pyReplace (pyReplace prefixStr "(Write-In)" "") "(Write-in)" "")
        appendCandidate st race ⟨name, [], votes⟩
      else if is_known_party prefixStr then
        let cand := st.current_candidate.getD ⟨"", [], 0⟩
        let pl : PartyLine := ⟨get_display_name (normalize_party prefixStr), votes⟩
        let cand' := { cand with party_lines := cand.party_lines ++ [pl] }
        { st with current_candidate := some cand' }
      else
        match parse_candidate_line prefixStr votes with
        | some c => appendCandidate st race c
        | none =>
          let tokens := pySplitWs prefixStr
          if st.in_race && 2 ≤ tokens.length && tokens.all headIsUpper then
            appendCandidate st race ⟨prefixStr, [], votes⟩
          else st
    else st

/-- The `"Candidate Name Total N"` branch. -/
def standardTotalLine (st : StandardState) (race : Race) (line : String) :
    StandardState :=
  match pyRsplitOnce line "Total" with
  | none => st
  | some pq =>
    let name := pyStrip pq.1
    let total_str := pyReplace (pyStrip pq.2) "," ""
    match pyIntStrict total_str with
    | none => st
    | some total =>
      match st.current_candidate with
      | some cand =>
        let cand' := { cand with name := name, total_votes := total }
        let race' := { race with candidates := race.candidates ++ [cand'] }
        { st with current_race := some race', current_candidate := none }
      | none =>
        let race' := { race with candidates := race.candidates ++ [⟨name, [], total⟩] }
        { st with current_race := some race' }

/-- One line of `StandardPDFParser._parse_races`.  `prev` is the raw
preceding line of the page, holding the race title when a `Vote For N`
marker is found. -/
def standardStep (st : StandardState) (prev : Option String) (rawLine : String) :
    StandardState :=
  let line := pyStrip rawLine
  if line = "" || standardIsHeader line then st
  else
    match extract_vote_for line with
    | some vf =>
      let races' := st.races ++
        (match st.current_race with
         | some r => [flushCandidate r st.current_candidate]
         | none => [])
      let title := pyStrip (prev.getD "")
      { races := races', current_race := some (newStandardRace title vf),
        current_candidate := none, in_race := true }
    | none =>
      if !st.in_race then st
      else if line = "TOTAL" then st
      else
        match st.current_race with
        | none => st
        | some race =>
          let s := parse_summary_line line race
          if s.1 then
            { st with
              current_race := some (flushCandidate s.2 st.current_candidate),
              current_candidate := none,
              in_race := if pyStartswith line "Total Ballots Cast" then false
                         else st.in_race }
          else if pyContains line " Total " then standardTotalLine st race line
          else standardVotesLine st race line

def standardLines : StandardState → Option String → List String → StandardState
  | st, _, [] => st
  | st, prev, l :: rest => standardLines (standardStep st prev l) (some l) rest

/-- `StandardPDFParser._parse_races`, over the per-page repaired texts. -/
def standardParseRaces (pageTexts : List String) : List Race :=
  let st := pageTexts.foldl
    (fun st text => standardLines st none (pySplitOn text "\n"))
    ⟨[], none, none, false⟩
  st.races ++
    (match st.current_race with
     | some r => [flushCandidate r st.current_candidate]
     | none => [])

/-! ## Format classification (`get_parser` in `parsers.py`) -/

/-- The parser classes `get_parser` can return. -/
inductive ParserKind
  | greenePDF
  | html
  | canvassPDF
  | precinctTable
  | standardPDF
deriving Repr, DecidableEq

/-- `get_parser` from `parsers.py` (named `getParser` here): dispatch on
`county_config.get('format', 'standard_pdf')`; any format not naming one of
the four specific parsers falls through to `StandardPDFParser`. -/
def getParser (county_config : List (String × String)) : ParserKind :=
  let format_type := (county_config.lookup "format").getD "standard_pdf"
  if format_type = "contest_overview" then .greenePDF
  else if format_type = "bootstrap_html" then .html
  else if format_type = "canvass" then .canvassPDF
  else if format_type = "precinct_table" then .precinctTable
  else .standardPDF

/-- The `sullivan` entry of `HUDSON_VALLEY_COUNTIES` in `registry.py`
(string-valued fields): a registered county whose declared format is
`"unknown"`, matching no parser predicate. -/
def sullivanConfig : List (String × String) :=
  [("name", "Sullivan"), ("source_type", "pdf"), ("format", "unknown")]

/-! ## Validators (`extractors/validators.py`)

`validate_extraction` takes arbitrary Python data, so its input is embedded
as a `PyVal` universe (floats are not modelled; the checked claims only
involve `int` counts).  `dict.get` on a non-dict raises `AttributeError`,
which the exception-aware functions surface as `Except.error`. -/

inductive PyVal
  | int (i : Int)
  | bool (b : Bool)
  | str (s : String)
  | list (xs : List PyVal)
  | dict (kvs : List (String × PyVal))
  | none

mutual

/-- Structural equality on embedded Python values, used for the `set`
membership tests in the validators.  (Python additionally identifies
`True == 1`; no checked claim depends on that corner.) -/
def pyBeq : PyVal → PyVal → Bool
  | .int a, .int b => a = b
  | .bool a, .bool b => a = b
  | .str a, .str b => a = b
  | .list a, .list b => pyBeqList a b
  | .dict a, .dict b => pyBeqKvs a b
  | .none, .none => true
  | _, _ => false

def pyBeqList : List PyVal → List PyVal → Bool
  | [], [] => true
  | a :: as, b :: bs => pyBeq a b && pyBeqList as bs
  | _, _ => false

def pyBeqKvs : List (String × PyVal) → List (String × PyVal) → Bool
  | [], [] => true
  | (k1, v1) :: as, (k2, v2) :: bs => k1 = k2 && pyBeq v1 v2 && pyBeqKvs as bs
  | _, _ => false

end

instance : BEq PyVal := ⟨pyBeq⟩

/-- Python truthiness of the embedded values. -/
def pyTruthy : PyVal → Bool
  | .int i => i ≠ 0
  | .bool b => b
  | .str s => s ≠ ""
  | .list xs => !xs.isEmpty
  | .dict kvs => !kvs.isEmpty
  | .none => false

/-- `isinstance(v, (int, float))` over the embedded universe (`bool` is a
subclass of `int` in Python). -/
def pyIsNumeric : PyVal → Bool
  | .int _ => true
  | .bool _ => true
  | _ => false

/-- Numeric value of an `int`-like `PyVal` (`True == 1`, `False == 0`). -/
def pyNumVal : PyVal → Int
  | .int i => i
  | .bool b => if b then 1 else 0
  | _ => 0

/-- Python `str(v)` / f-string rendering for the scalar values that reach the
validator messages.  Containers would render as their `repr`; the checked
claims never depend on that text, so a placeholder is used. -/
def pyStr : PyVal → String
  | .int i => intStr i
  | .bool b => if b then "True" else "False"
  | .str s => s
  | .none => "None"
  | .list _ => "<list>"
  | .dict _ => "<dict>"

inductive PyExc
  | attributeError
deriving Repr, DecidableEq

/-- `v.get(k, dflt)`: raises `AttributeError` when `v` is not a dict. -/
def pyGetDefault (v : PyVal) (k : String) (dflt : PyVal) :
    Except PyExc PyVal :=
  match v with
  | .dict kvs => .ok ((kvs.lookup k).getD dflt)
  | _ => .error .attributeError

/-! The validator issue strings, named for reuse in the proofs. -/

def msgNotDict (rt : PyVal) : String :=
  "Candidate in race '" ++ (pyStr rt ++ "' must be a dictionary")

def msgNoName (rt : PyVal) : String :=
  "Candidate in race '" ++ (pyStr rt ++ "' missing or empty 'name'")

def msgNoTotal (cn : PyVal) : String :=
  "Candidate '" ++ (pyStr cn ++ "' missing 'total_votes'")

def msgTotalNotNum (cn : PyVal) : String :=
  "Candidate '" ++ (pyStr cn ++ "' total_votes must be numeric")

def msgNegTotal (cn tv : PyVal) : String :=
  "Candidate '" ++ (pyStr cn ++ ("' has negative votes: " ++ pyStr tv))

def msgPlNotList (cn : PyVal) : String :=
  "Candidate '" ++ (pyStr cn ++ "' party_lines must be a list")

def msgPlNotDict (cn : PyVal) : String :=
  "Candidate '" ++ (pyStr cn ++ "' party line must be a dictionary")

def msgPlNoParty (cn : PyVal) : String :=
  "Candidate '" ++ (pyStr cn ++ "' party line missing 'party'")

def msgPlNoVotes (cn : PyVal) : String :=
  "Candidate '" ++ (pyStr cn ++ "' party line missing 'votes'")

def msgDupParty (cn pn : PyVal) : String :=
  "Candidate '" ++ (pyStr cn ++ ("' has duplicate party line '" ++
    (pyStr pn ++ "'")))

def msgPlVotesNotNum (cn pn : PyVal) : String :=
  "Candidate '" ++ (pyStr cn ++ ("' party line '" ++
    (pyStr pn ++ "' votes must be numeric")))

def msgPlNegVotes (cn pn v : PyVal) : String :=
  "Candidate '" ++ (pyStr cn ++ ("' party line '" ++
    (pyStr pn ++ ("' has negative votes: " ++ pyStr v))))

def msgExceeds (cn : PyVal) (plTotal : Int) (tv : PyVal) : String :=
  "Candidate '" ++ (pyStr cn ++ ("' party line total (" ++
    (intStr plTotal ++ (") exceeds candidate total (" ++
      (pyStr tv ++ ")")))))

/-- Accumulator of the party-line loop in `validate_candidate`: collected
issues, running vote total and the `party_names` set (insertion order). -/
structure PlAcc where
  issues : List String
  total : Int
  names : List PyVal

/-- One iteration of the party-line loop of `validate_candidate`. -/
def plStep (cn : PyVal) (acc : PlAcc) (pl : PyVal) : PlAcc :=
  match pl with
  | .dict kvs =>
    let partyMissing :=
      (kvs.lookup "party").isNone || !pyTruthy ((kvs.lookup "party").getD .none)
    let i1 := if partyMissing then [msgPlNoParty cn] else []
    match kvs.lookup "votes" with
    | Option.none => { acc with issues := acc.issues ++ i1 ++ [msgPlNoVotes cn] }
    | some votes =>
      let pn := (kvs.lookup "party").getD (.str "unknown")
      let isDup := acc.names.contains pn
      let i2 := if isDup then [msgDupParty cn pn] else []
      let names' := acc.names ++ (if isDup then [] else [pn])
      if !pyIsNumeric votes then
        { issues := acc.issues ++ i1 ++ i2 ++ [msgPlVotesNotNum cn pn],
          total := acc.total, names := names' }
      else
        let i3 := if pyNumVal votes < 0 then [msgPlNegVotes cn pn votes] else []
        { issues := acc.issues ++ i1 ++ i2 ++ i3,
          total := acc.total + pyNumVal votes, names := names' }
  | _ => { acc with issues := acc.issues ++ [msgPlNotDict cn] }

/-- `validate_candidate` from `validators.py` (it guards every access, so it
never raises). -/
def validate_candidate (candidate : PyVal) (race_title : PyVal) : List String :=
  match candidate with
  | .dict kvs =>
    let nameMissing :=
      (kvs.lookup "name").isNone || !pyTruthy ((kvs.lookup "name").getD .none)
    let nameIssue := if nameMissing then [msgNoName race_title] else []
    let cn := (kvs.lookup "name").getD (.str "unknown")
    match kvs.lookup "total_votes" with
    | Option.none => nameIssue ++ [msgNoTotal cn]
    | some tv =>
      if !pyIsNumeric tv then nameIssue ++ [msgTotalNotNum cn]
      else
        let negIssue := if pyNumVal tv < 0 then [msgNegTotal cn tv] else []
        let plIssues :=
          match kvs.lookup "party_lines" with
          | Option.none => []
          | some (.list pls) =>
            let acc := pls.foldl (plStep cn) ⟨[], 0, []⟩
            acc.issues ++
              (if pyNumVal tv < acc.total then [msgExceeds cn acc.total tv] else [])
          | some _ => [msgPlNotList cn]
        nameIssue ++ negIssue ++ plIssues
  | _ => [msgNotDict race_title]

/-- The candidate loop of `validate_race`: `candidate.get("name", "")` raises
`AttributeError` on a non-dict entry. -/
def raceCandLoop (race_title : PyVal) :
    List PyVal → List String → List PyVal → Except PyExc (List String)
  | [], issues, _ => .ok issues
  | cand :: rest, issues, seen =>
    let ci := validate_candidate cand race_title
    match pyGetDefault cand "name" (.str "") with
    | .error e => .error e
    | .ok cn =>
      let isDup := seen.contains cn
      let dup := if isDup then ["Duplicate candidate '" ++ pyStr cn ++ "'"] else []
      raceCandLoop race_title rest (issues ++ ci ++ dup)
        (seen ++ (if isDup then [] else [cn]))

/-- `validate_race` from `validators.py`. -/
def validate_race (race : PyVal) : Except PyExc (List String) :=
  match race with
  | .dict kvs =>
    let titleMissing :=
      (kvs.lookup "race_title").isNone ||
        !pyTruthy ((kvs.lookup "race_title").getD .none)
    let i1 := if titleMissing then ["Missing or empty 'race_title'"] else []
    match kvs.lookup "candidates" with
    | Option.none => .ok (i1 ++ ["Missing 'candidates' list"])
    | some (.list cs) =>
      if cs.isEmpty then
        .ok (i1 ++ ["No candidates in race '" ++
          pyStr ((kvs.lookup "race_title").getD (.str "unknown")) ++ "'"])
      else
        raceCandLoop ((kvs.lookup "race_title").getD (.str "unknown")) cs i1 []
    | some _ => .ok (i1 ++ ["'candidates' must be a list"])
  | _ => .ok ["Race must be a dictionary"]

/-- The race loop of `validate_extraction`: `race.get("race_title", "")`
raises `AttributeError` on a non-dict entry. -/
def extLoop :
    Nat → List PyVal → List String → List PyVal → Except PyExc (List String)
  | _, [], issues, _ => .ok issues
  | i, race :: rest, issues, seen =>
    match validate_race race with
    | .error e => .error e
    | .ok ris =>
      let pre := ris.map (fun s => "Race " ++ Nat.repr i ++ ": " ++ s)
      match pyGetDefault race "race_title" (.str "") with
      | .error e => .error e
      | .ok rt =>
        let isDup := seen.contains rt
        let dup := if isDup then
          ["Race " ++ Nat.repr i ++ ": Duplicate race title '" ++ pyStr rt ++ "'"]
          else []
        extLoop (i + 1) rest (issues ++ pre ++ dup)
          (seen ++ (if isDup then [] else [rt]))

/-- `validate_extraction` from `validators.py`. -/
def validate_extraction (data : PyVal) : Except PyExc (List String) :=
  match data with
  | .dict kvs =>
    match kvs.lookup "races" with
    | Option.none => .ok ["Missing 'races' key in data"]
    | some (.list rs) =>
      if rs.isEmpty then .ok ["No races found in data"]
      else extLoop 0 rs [] []
    | some _ => .ok ["'races' must be a list"]
  | _ => .ok ["Data must be a dictionary"]

/-! ## Derived notions used by the claims -/

/-- Sum of a candidate's party-line votes (§3's cross-check quantity). -/
def plVotesSum (pls : List PartyLine) : Int :=
  (pls.map PartyLine.votes).sum

/-- The C10 invariant for one candidate: a candidate not named with the
write-in identity has its declared total equal to its party-line sum. -/
def candTotalOk (c : Candidate) : Prop :=
  pyStartswith c.name "Write-in - " = false → c.total_votes = plVotesSum c.party_lines

/-- The C10 invariant over a candidate dictionary. -/
def dictTotalsOk (d : List (String × Candidate)) : Prop :=
  ∀ kc ∈ d, candTotalOk kc.2

/-- The C10 invariant over an emitted race list. -/
def racesTotalsOk (rs : List Race) : Prop :=
  ∀ r ∈ rs, ∀ c ∈ r.candidates, candTotalOk c

/-- The C10 invariant over a whole canvass parser state. -/
def canvassStateOk (st : CanvassState) : Prop :=
  racesTotalsOk st.races ∧ dictTotalsOk st.candidate_dict

/-- Sum of the `"votes"` fields of a list of embedded party-line dicts (the
quantity the validator's `party_line_total` accumulates when every entry is
a dict with numeric votes). -/
def plVotesSumPy (pls : List PyVal) : Int :=
  (pls.map (fun pl =>
    match pl with
    | .dict kvs => pyNumVal ((kvs.lookup "votes").getD .none)
    | _ => 0)).sum

/-- A well-shaped embedded party line: a dict with a numeric `"votes"`
value. -/
def plNumeric (pl : PyVal) : Prop :=
  ∃ kvs v, pl = .dict kvs ∧ kvs.lookup "votes" = some v ∧ pyIsNumeric v = true

/-- "Equal modulo whitespace": the spec's comparison for the vertical-header
round trip. -/
def stripAllWs (s : String) : String :=
  ⟨s.data.filter (fun c => !isPyWs c)⟩

/-! ## Concrete claim inputs -/

/-- C1: a precinct-table page with two precinct vote rows (120 and 80 for
Jane Doe / Democratic) and no TOTAL row. -/
def c1PageNoTotal : PrecinctPage :=
  { text := "COUNTY CLERK\nsome header line",
    tables := [[
      [some "DISTRICT", some "DEM"],
      [some "", some "JANE DOE"],
      [some "Precinct 1", some "120"],
      [some "Precinct 2", some "80"]]] }

/-- C1: the same page with a TOTAL row carrying 200. -/
def c1PageWithTotal : PrecinctPage :=
  { text := "COUNTY CLERK\nsome header line",
    tables := [[
      [some "DISTRICT", some "DEM"],
      [some "", some "JANE DOE"],
      [some "Precinct 1", some "120"],
      [some "Precinct 2", some "80"],
      [some "TOTAL", some "200"]]] }

def c1RaceNoCandidates : Race :=
  { race_title := "COUNTY CLERK", vote_for := 1, candidates := [],
    write_in := 0, total_votes_cast := 0, under_votes := 0, over_votes := 0,
    total_ballots_cast := 0 }

def c1RaceFromTotalRow : Race :=
  { race_title := "COUNTY CLERK", vote_for := 1,
    candidates := [⟨"JANE DOE", [⟨"Democratic", 200⟩], 200⟩],
    write_in := 0, total_votes_cast := 0, under_votes := 0, over_votes := 0,
    total_ballots_cast := 0 }

/-- C3: an extraction dict whose `races` list holds a non-dict entry. -/
def c3FailingInput : PyVal :=
  .dict [("races", .list [.int 42])]

/-- C4 witness: a candidate whose party-line sum (5) exceeds its declared
total (3). -/
def c4PartyLines : List PyVal :=
  [.dict [("party", .str "Democratic"), ("votes", .int 5)]]

def c4Fields : List (String × PyVal) :=
  [("name", .str "A"), ("total_votes", .int 3),
   ("party_lines", .list c4PartyLines)]

/-- The shapes an issue emitted by the party-line loop can take when every
party line is a dict with numeric votes. -/
def c4IssueShape (cn : PyVal) (s : String) : Prop :=
  s = msgPlNoParty cn ∨ (∃ pn, s = msgDupParty cn pn) ∨
    (∃ pn v, s = msgPlNegVotes cn pn v)

/-- C8: canvass pages where a bare number 7 precedes the `Total Votes 42`
line. -/
def c8Pages : List String :=
  ["the office of\nMayor, was\n7\nTotal Votes 42"]

/-- C8: canvass pages exercising every summary label. -/
def c8AllSummaryPages : List String :=
  ["the office of\nMayor, was\n7\nBlank\n3\nVoid\n5\nScattering\nTotal Votes 42\nTotal Ballots Cast 50"]

def c8Race : Race :=
  { race_title := "Mayor", vote_for := 1, candidates := [], write_in := 0,
    total_votes_cast := 42, under_votes := 0, over_votes := 0,
    total_ballots_cast := 0 }

def c8AllSummaryRace : Race :=
  { race_title := "Mayor", vote_for := 1, candidates := [], write_in := 5,
    total_votes_cast := 42, under_votes := 7, over_votes := 3,
    total_ballots_cast := 50 }

/-- C7: bottom-to-top single-character lines spelling `KAMALA D. HARRIS` in
reverse emission order. -/
def c7Input : String :=
  "S\nI\nR\nR\nA\nH\n \n.\nD\n \nA\nL\nA\nM\nA\nK"

/-- C9 witness inputs. -/
def c9Doc : List String :=
  ["MAYOR RACE\nVote For 1\nDemocratic 10\nJane Doe Total 10"]

def c9Pages : List PrecinctPage :=
  [{ text := "COUNTY CLERK\nx",
     tables := [[
       [some "DISTRICT", some "DEM"],
       [some "", some "JANE DOE"],
       [some "TOTAL", some "200"]]] }]

/-- C10 witness: a canvass document with one fusion candidate. -/
def c10Pages : List String :=
  ["the office of\nMayor, was\nJane Doe Democratic received 10\nJane Doe Conservative received 5"]

def c10Race : Race :=
  { race_title := "Mayor", vote_for := 1,
    candidates := [⟨"Jane Doe",
      [⟨"Democratic", 10⟩, ⟨"Conservative", 5⟩], 15⟩],
    write_in := 0, total_votes_cast := 0, under_votes := 0, over_votes := 0,
    total_ballots_cast := 0 }

def c10Cand : Candidate :=
  ⟨"Jane Doe", [⟨"Democratic", 10⟩, ⟨"Conservative", 5⟩], 15⟩

/-! ## Theorems -/

/-- C1 (counterexample): on a precinct-table document whose table has two
precinct vote rows (120 and 80 for the retained Jane Doe / Democratic
column) and no TOTAL row, `PrecinctTableParser._parse_races` emits the race
with NO candidates at all — the precinct data rows are never summed, so the
claimed aggregation to a single PartyLine of 200 is false on the code. -/
theorem C1_counterexample :
    precinctParseRaces [c1PageNoTotal] = [c1RaceNoCandidates] ∧
      c1RaceNoCandidates.candidates = [] := ⟨rfl, rfl⟩

/-- C1 (amended): county-wide totals come from the row whose first cell
contains "TOTAL": with a TOTAL row of 200 present, the same document yields
exactly one candidate `JANE DOE` with a single PartyLine
`{Democratic, 200}` and declared total 200, the precinct rows contributing
nothing. -/
theorem C1_total_row_source :
    precinctParseRaces [c1PageWithTotal] = [c1RaceFromTotalRow] := rfl

/-- C2 (counterexample): the registered `sullivan` county declares format
`"unknown"`, which matches no parsing strategy, yet `get_parser` returns the
`StandardPDFParser` rather than failing with `UnsupportedFormat` (no such
error exists in the code). -/
theorem C2_counterexample :
    getParser sullivanConfig = ParserKind.standardPDF := rfl

/-- C2 (amended): every county config whose declared format is none of the
four specifically mapped formats — including missing and unknown formats —
falls back to the `StandardPDFParser` default; no error is raised. -/
theorem C2_unmatched_format_falls_back (cfg : List (String × String))
    (h : ((cfg.lookup "format").getD "standard_pdf") ∉
      (["contest_overview", "bootstrap_html", "canvass", "precinct_table"] :
        List String)) :
    getParser cfg = ParserKind.standardPDF := by
  simp only [List.mem_cons, List.not_mem_nil, or_false, not_or] at h
  obtain ⟨h1, h2, h3, h4⟩ := h
  simp [getParser, h1, h2, h3, h4]

theorem C2_witness :
    getParser [("name", "Sullivan"), ("source_type", "pdf"),
      ("format", "unknown")] = ParserKind.standardPDF :=
  C2_unmatched_format_falls_back _ (by decide)

/-- C3: `validate_extraction` is claimed never to raise, including on
malformed data such as a non-dict race entry; in fact
`race.get("race_title", "")` at `validators.py:49` runs on every entry even
after `validate_race` reported "Race must be a dictionary", so a non-dict
race raises `AttributeError`. -/
theorem C3_nonDictRace_raises :
    validate_extraction c3FailingInput = .error .attributeError := rfl

/-- C5 (counterexample): the hyphenated token "LATOT-X" is neither left
unmodified nor reversed as a whole; the repair rewrites it per hyphen
segment to "TOTAL-X", so the claimed token-level dichotomy (reverse exactly
the classified tokens, leave the rest unmodified) fails. -/
theorem C5_counterexample :
    fixWord "LATOT-X" = "TOTAL-X" ∧
      fixWord "LATOT-X" ≠ "LATOT-X" ∧
      fixWord "LATOT-X" ≠ strRev "LATOT-X" := by
  refine ⟨rfl, ?_, ?_⟩ <;> decide

/-- C5 (amended): a hyphen-free token is reversed exactly when it has ≥ 4
alphabetic characters and either starts (as a prefix) with a curated
previously-observed mirrored pattern, or starts with a doubled letter and
its character-reversal ends in one of the fixed name suffixes; all other
hyphen-free tokens are left unmodified.  (Hyphenated tokens are repaired per
segment by the same rule.) -/
theorem C5_hyphen_free_rule (w : String) (h : pyContains w "-" = false) :
    fixWord w =
      if 4 ≤ w.length ∧ pyIsalpha w = true ∧
          (matchesCurated (pyUpper w) = true ∨ doubledHeuristic (pyUpper w) = true)
      then strRev w else w := by
  have hiff : is_word_likely_mirrored w = true ↔
      (4 ≤ w.length ∧ pyIsalpha w = true ∧
        (matchesCurated (pyUpper w) = true ∨ doubledHeuristic (pyUpper w) = true)) := by
    unfold is_word_likely_mirrored
    by_cases h1 : w.length < 4
    · have hd : (decide (w.length < 4) || !pyIsalpha w) = true := by
        simp [h1]
      rw [if_pos hd]
      constructor
      · intro hx; cases hx
      · intro hx; omega
    · have h4 : 4 ≤ w.length := by omega
      by_cases h2 : pyIsalpha w = true
      · have hd : (decide (w.length < 4) || !pyIsalpha w) = false := by
          simp [h1, h2]
        rw [if_neg (by simp [hd])]
        by_cases h3 : matchesCurated (pyUpper w) = true
        · simp [h3, h4, h2]
        · have h3' : matchesCurated (pyUpper w) = false := by
            cases hx : matchesCurated (pyUpper w)
            · rfl
            · exact absurd hx h3
          simp [h3', h4, h2]
      · have h2' : pyIsalpha w = false := by
          cases hx : pyIsalpha w
          · rfl
          · exact absurd hx h2
        have hd : (decide (w.length < 4) || !pyIsalpha w) = true := by
          simp [h2']
        rw [if_pos hd]
        simp [h2']
  unfold fixWord
  rw [h]
  simp only [Bool.false_eq_true, if_false]
  by_cases hc : is_word_likely_mirrored w = true
  · have hcond := hiff.mp hc
    have hlen : (3 < w.length) := by omega
    rw [if_pos, if_pos hcond]
    simp [hlen, hcond.2.1, hc]
  · have hcond : ¬ (4 ≤ w.length ∧ pyIsalpha w = true ∧
        (matchesCurated (pyUpper w) = true ∨ doubledHeuristic (pyUpper w) = true)) :=
      fun hx => hc (hiff.mpr hx)
    have hc' : is_word_likely_mirrored w = false := by
      cases hx : is_word_likely_mirrored w
      · rfl
      · exact absurd hx hc
    rw [if_neg, if_neg hcond]
    simp [hc']

theorem C5_witness :
    fixWord "NAMDOOG" =
      if 4 ≤ "NAMDOOG".length ∧ pyIsalpha "NAMDOOG" = true ∧
          (matchesCurated (pyUpper "NAMDOOG") = true ∨
            doubledHeuristic (pyUpper "NAMDOOG") = true)
      then strRev "NAMDOOG" else "NAMDOOG" :=
  C5_hyphen_free_rule "NAMDOOG" (by decide)

/-- C6: applying the mirrored-word repair to a line with the token "NAMDOOG"
yields "GOODMAN", the real word "GENERAL" is untouched, and both behave the
same inside a longer line. -/
theorem C6_mirror_examples :
    fix_mirrored_words "NAMDOOG" = "GOODMAN" ∧
      fix_mirrored_words "GENERAL" = "GENERAL" ∧
      fix_mirrored_words "GENERAL NAMDOOG 123" = "GENERAL GOODMAN 123" :=
  ⟨rfl, rfl, rfl⟩

/-- C7: the vertical-text repair applied to bottom-to-top single-character
lines spelling "KAMALA D. HARRIS" in reverse emission order reconstructs
the name modulo whitespace. -/
theorem C7_vertical_join :
    stripAllWs (fix_vertical_text c7Input) = stripAllWs "KAMALA D. HARRIS" := rfl

/-- C8 (counterexample): in the canvass parser, with a bare `7` on the line
preceding `Total Votes 42`, the emitted race has `total_votes_cast = 42`
(read from the last token of the label line itself) and not `7` (the value
on the preceding line, as the claim demands for every summary value). -/
theorem C8_counterexample :
    canvassParseRaces c8Pages = [c8Race] ∧
      c8Race.total_votes_cast = 42 ∧ (42 : Int) ≠ 7 :=
  ⟨rfl, rfl, by decide⟩

/-- C8 (amended): under votes ("Blank"), over votes ("Void") and write-ins
("Scattering") are read from the line preceding their label, while
"Total Votes" and "Total Ballots Cast" are read from the last token of the
label line itself. -/
theorem C8_summary_positions :
    canvassParseRaces c8AllSummaryPages = [c8AllSummaryRace] := rfl

/-- C9: each embedded parse function is deterministic — two runs on equal
page inputs produce equal race lists, for both the standard text-layout
parser and the precinct-table parser. -/
theorem C9_deterministic (a b : List String) (p q : List PrecinctPage)
    (hab : a = b) (hpq : p = q) :
    standardParseRaces a = standardParseRaces b ∧
      precinctParseRaces p = precinctParseRaces q := by
  subst hab; subst hpq; exact ⟨rfl, rfl⟩

theorem C9_witness :
    standardParseRaces c9Doc = standardParseRaces c9Doc ∧
      precinctParseRaces c9Pages = precinctParseRaces c9Pages :=
  C9_deterministic c9Doc c9Doc c9Pages c9Pages rfl rfl

/-! ### C10: the canvass parser's totals are party-line sums by construction -/

theorem lookup_mem {α : Type} {d : List (String × α)} {k : String} {v : α}
    (h : d.lookup k = some v) : (k, v) ∈ d := by
  induction d with
  | nil => simp [List.lookup] at h
  | cons p rest ih =>
    obtain ⟨k1, v1⟩ := p
    by_cases hk : k = k1
    · subst hk
      simp [List.lookup] at h
      subst h
      exact List.mem_cons_self _ _
    · have hbeq : (k == k1) = false := beq_eq_false_iff_ne.mpr hk
      simp [List.lookup, hbeq] at h
      exact List.mem_cons_of_mem _ (ih h)

theorem dictTotalsOk_nil : dictTotalsOk [] :=
  fun kc h => absurd h (List.not_mem_nil kc)

theorem dictTotalsOk_update (d : List (String × Candidate)) (k : String)
    (v : Candidate) (hd : dictTotalsOk d) (hv : candTotalOk v) :
    dictTotalsOk (pyDictUpdate d k v) := by
  intro kc hkc
  unfold pyDictUpdate at hkc
  by_cases hl : (d.lookup k).isSome
  · rw [if_pos hl] at hkc
    obtain ⟨p, hp, hpe⟩ := List.mem_map.mp hkc
    by_cases hpk : p.1 = k
    · rw [if_pos hpk] at hpe
      rw [← hpe]
      exact hv
    · rw [if_neg hpk] at hpe
      rw [← hpe]
      exact hd p hp
  · rw [if_neg hl] at hkc
    rcases List.mem_append.mp hkc with h | h
    · exact hd kc h
    · rw [List.mem_singleton.mp h]
      exact hv

theorem dictTotalsOk_modify (d : List (String × Candidate)) (k : String)
    (init : Candidate) (f : Candidate → Candidate) (hd : dictTotalsOk d)
    (hf : ∀ c, candTotalOk c → candTotalOk (f c)) (hinit : candTotalOk init) :
    dictTotalsOk (pyDictModify d k init f) := by
  unfold pyDictModify
  cases hl : d.lookup k with
  | none =>
    intro kc hkc
    rcases List.mem_append.mp hkc with h | h
    · exact hd kc h
    · rw [List.mem_singleton.mp h]
      exact hf init hinit
  | some v =>
    have hv : candTotalOk v := hd (k, v) (lookup_mem hl)
    intro kc hkc
    obtain ⟨p, hp, hpe⟩ := List.mem_map.mp hkc
    by_cases hpk : p.1 = k
    · rw [if_pos hpk] at hpe
      rw [← hpe]
      exact hf v hv
    · rw [if_neg hpk] at hpe
      rw [← hpe]
      exact hd p hp

theorem candTotalOk_addLine (c : Candidate) (party : String) (votes : Int)
    (hc : candTotalOk c) :
    candTotalOk { c with party_lines := c.party_lines ++ [⟨party, votes⟩],
                         total_votes := c.total_votes + votes } := by
  intro hn
  have hsum : plVotesSum (c.party_lines ++ [⟨party, votes⟩]) =
      plVotesSum c.party_lines + votes := by
    simp [plVotesSum]
  simp only [hsum]
  have := hc hn
  omega

theorem writeIn_key_starts (n : String) :
    pyStartswith ("Write-in - " ++ n) "Write-in - " = true := by
  unfold pyStartswith
  rw [String.data_append, List.isPrefixOf_iff_prefix]
  exact List.prefix_append _ _

theorem dictTotalsOk_received (d : List (String × Candidate)) (line : String)
    (hd : dictTotalsOk d) : dictTotalsOk (canvassReceivedLine d line) := by
  simp only [canvassReceivedLine]
  split_ifs
  · -- write-in branch
    unfold canvassWriteInCandidate
    apply dictTotalsOk_update _ _ _ hd
    intro hn
    rw [writeIn_key_starts] at hn
    cases hn
  · -- regular-candidate branch
    simp only [canvassRegularCandidate]
    split_ifs
    · apply dictTotalsOk_modify _ _ _ _ hd
      · intro c hc
        exact candTotalOk_addLine c _ _ hc
      · intro _
        rfl
    · exact hd
  · exact hd
  · exact hd

theorem flushRaceDict_ok (cur : Option Race) (d : List (String × Candidate))
    (hd : dictTotalsOk d) :
    ∀ r ∈ flushRaceDict cur d, ∀ c ∈ r.candidates, candTotalOk c := by
  intro r hr c hc
  unfold flushRaceDict at hr
  cases cur with
  | none => cases hr
  | some r0 =>
    rw [List.mem_singleton.mp hr] at hc
    obtain ⟨p, hp, hpe⟩ := List.mem_map.mp hc
    rw [← hpe]
    exact hd p hp

theorem canvassOpenRaceStep_ok (st : CanvassState) (race : Race)
    (prev : Option String) (line : String) (h : canvassStateOk st) :
    canvassStateOk (canvassOpenRaceStep st race prev line) := by
  simp only [canvassOpenRaceStep]
  split_ifs <;>
    first
      | exact ⟨h.1, h.2⟩
      | exact ⟨h.1, dictTotalsOk_received _ _ h.2⟩

theorem canvassStep_ok (st : CanvassState) (prev : Option String)
    (raw : String) (h : canvassStateOk st) :
    canvassStateOk (canvassStep st prev raw) := by
  simp only [canvassStep]
  split_ifs
  · exact h
  · exact ⟨h.1, h.2⟩
  · -- race boundary: flush the open race from the candidate dict
    refine ⟨?_, dictTotalsOk_nil⟩
    intro r hr c hc
    rcases List.mem_append.mp hr with h1 | h1
    · exact h.1 r h1 c hc
    · exact flushRaceDict_ok st.current_race st.candidate_dict h.2 r h1 c hc
  · cases hcr : st.current_race with
    | none => exact h
    | some race => exact canvassOpenRaceStep_ok st race prev _ h

theorem canvassLines_ok (lines : List String) :
    ∀ st prev, canvassStateOk st → canvassStateOk (canvassLines st prev lines) := by
  induction lines with
  | nil => intro st prev h; exact h
  | cons l rest ih =>
    intro st prev h
    exact ih _ _ (canvassStep_ok st prev l h)

theorem canvassFold_ok (pages : List String) :
    ∀ st, canvassStateOk st →
      canvassStateOk (pages.foldl
        (fun st text => canvassLines st none (pySplitOn text "\n")) st) := by
  induction pages with
  | nil => intro st h; exact h
  | cons p rest ih =>
    intro st h
    exact ih _ (canvassLines_ok _ st none h)

/-- C10: every candidate emitted by the canvass-narrative parser whose
identity is not the `"Write-in - "` form has its declared `total_votes`
exactly equal to the sum of its party-line votes — the total is accumulated
from the party lines themselves, so the ≤ cross-check holds as an equality
by construction for this format. -/
theorem C10_canvass_total_is_partyline_sum (pages : List String) (r : Race)
    (hr : r ∈ canvassParseRaces pages) (c : Candidate) (hc : c ∈ r.candidates)
    (hw : pyStartswith c.name "Write-in - " = false) :
    c.total_votes = plVotesSum c.party_lines := by
  unfold canvassParseRaces at hr
  have hst : canvassStateOk (pages.foldl
      (fun st text => canvassLines st none (pySplitOn text "\n"))
      ⟨[], none, [], false⟩) :=
    canvassFold_ok pages _ ⟨fun r hr => absurd hr (List.not_mem_nil r),
      dictTotalsOk_nil⟩
  rcases List.mem_append.mp hr with h1 | h1
  · exact h1 |> hst.1 r |> fun hh => hh c hc hw
  · exact flushRaceDict_ok _ _ hst.2 r h1 c hc hw

theorem C10_witness :
    c10Cand.total_votes = plVotesSum c10Cand.party_lines :=
  C10_canvass_total_is_partyline_sum c10Pages c10Race
    (by
      have he : canvassParseRaces c10Pages = [c10Race] := rfl
      rw [he]
      exact List.mem_singleton.mpr rfl)
    c10Cand
    (List.mem_singleton.mpr rfl)
    rfl

/-! ### C4: the exceeds-issue is reported exactly when the party-line sum
exceeds the declared total -/

theorem strEqOfData {b c : String} (h : b.data = c.data) : b = c := by
  cases b; cases c; exact congrArg String.mk h

theorem strCancel {a b c : String} (h : a ++ b = a ++ c) : b = c := by
  have hd := congrArg String.data h
  rw [String.data_append, String.data_append] at hd
  exact strEqOfData (List.append_cancel_left hd)

theorem litAppendGet (l r : String) (k : Nat) (h : k < l.data.length) :
    (l ++ r).data[k]? = l.data[k]? := by
  rw [String.data_append]
  exact List.getElem?_append_left h

theorem neLitLit (l1 r1 l2 r2 : String) (k : Nat) (h1 : k < l1.data.length)
    (h2 : k < l2.data.length) (h : l1.data[k]? ≠ l2.data[k]?) :
    l1 ++ r1 ≠ l2 ++ r2 := by
  intro he
  apply h
  rw [← litAppendGet l1 r1 k h1, he, litAppendGet l2 r2 k h2]

theorem neLitStr (l1 r1 s2 : String) (k : Nat) (h1 : k < l1.data.length)
    (h : l1.data[k]? ≠ s2.data[k]?) : l1 ++ r1 ≠ s2 := by
  intro he
  apply h
  rw [← litAppendGet l1 r1 k h1, he]

theorem msgExceeds_ne_noName (cn rt : PyVal) (S : Int) (T : PyVal) :
    msgExceeds cn S T ≠ msgNoName rt := by
  unfold msgExceeds msgNoName
  exact neLitLit _ _ _ _ 10 (by decide) (by decide) (by decide)

theorem msgExceeds_ne_negTotal (cn tv : PyVal) (S : Int) (T : PyVal) :
    msgExceeds cn S T ≠ msgNegTotal cn tv := by
  unfold msgExceeds msgNegTotal
  intro he
  exact neLitLit "' party line total (" _ "' has negative votes: " _ 2
    (by decide) (by decide) (by decide) (strCancel (strCancel he))

theorem msgExceeds_ne_plNoParty (cn : PyVal) (S : Int) (T : PyVal) :
    msgExceeds cn S T ≠ msgPlNoParty cn := by
  unfold msgExceeds msgPlNoParty
  intro he
  exact neLitStr "' party line total (" _ "' party line missing 'party'" 13
    (by decide) (by decide) (strCancel (strCancel he))

theorem msgExceeds_ne_dupParty (cn pn : PyVal) (S : Int) (T : PyVal) :
    msgExceeds cn S T ≠ msgDupParty cn pn := by
  unfold msgExceeds msgDupParty
  intro he
  exact neLitLit "' party line total (" _ "' has duplicate party line '" _ 2
    (by decide) (by decide) (by decide) (strCancel (strCancel he))

theorem msgExceeds_ne_plNegVotes (cn pn v : PyVal) (S : Int) (T : PyVal) :
    msgExceeds cn S T ≠ msgPlNegVotes cn pn v := by
  unfold msgExceeds msgPlNegVotes
  intro he
  exact neLitLit "' party line total (" _ "' party line '" _ 13
    (by decide) (by decide) (by decide) (strCancel (strCancel he))

theorem msgExceeds_notShape (cn : PyVal) (S : Int) (T : PyVal) (s : String)
    (hs : c4IssueShape cn s) : msgExceeds cn S T ≠ s := by
  rcases hs with h | ⟨pn, h⟩ | ⟨pn, v, h⟩
  · rw [h]; exact msgExceeds_ne_plNoParty cn S T
  · rw [h]; exact msgExceeds_ne_dupParty cn pn S T
  · rw [h]; exact msgExceeds_ne_plNegVotes cn pn v S T

theorem mem_ite_singleton {c : Prop} [Decidable c] {x s : String}
    (h : s ∈ if c then [x] else []) : s = x ∧ c := by
  split at h
  · exact ⟨List.mem_singleton.mp h, by assumption⟩
  · cases h

/-- One numeric dict party line: `plStep` adds its votes to the running total
and only emits issues of the three benign shapes. -/
theorem plStep_numeric (cn : PyVal) (acc : PlAcc) (kvs : List (String × PyVal))
    (v : PyVal) (hlv : kvs.lookup "votes" = some v) (hnv : pyIsNumeric v = true) :
    (plStep cn acc (.dict kvs)).total = acc.total + pyNumVal v ∧
      ∀ s ∈ (plStep cn acc (.dict kvs)).issues,
        s ∈ acc.issues ∨ c4IssueShape cn s := by
  unfold plStep
  dsimp only
  rw [hlv]
  simp only [hnv, Bool.not_true, Bool.false_eq_true, if_false]
  refine ⟨by trivial, ?_⟩
  intro s hs
  simp only [List.append_assoc, List.mem_append] at hs
  rcases hs with h | h | h | h
  · exact Or.inl h
  · exact Or.inr (Or.inl (mem_ite_singleton h).1)
  · exact Or.inr (Or.inr (Or.inl ⟨_, (mem_ite_singleton h).1⟩))
  · exact Or.inr (Or.inr (Or.inr ⟨_, _, (mem_ite_singleton h).1⟩))

/-- The party-line fold: with every line a numeric dict, the final total is
the party-line vote sum and every emitted issue has a benign shape. -/
theorem plFoldl_spec (cn : PyVal) (pls : List PyVal)
    (hnum : ∀ pl ∈ pls, plNumeric pl) : ∀ acc : PlAcc,
    (pls.foldl (plStep cn) acc).total = acc.total + plVotesSumPy pls ∧
      ∀ s ∈ (pls.foldl (plStep cn) acc).issues,
        s ∈ acc.issues ∨ c4IssueShape cn s := by
  induction pls with
  | nil =>
    intro acc
    refine ⟨by simp [plVotesSumPy], fun s hs => Or.inl hs⟩
  | cons pl rest ih =>
    intro acc
    obtain ⟨kvs, v, hpl, hlv, hnv⟩ := hnum pl (List.mem_cons_self _ _)
    subst hpl
    have hstep := plStep_numeric cn acc kvs v hlv hnv
    have hrest := ih (fun p hp => hnum p (List.mem_cons_of_mem _ hp))
      (plStep cn acc (.dict kvs))
    rw [List.foldl_cons]
    constructor
    · rw [hrest.1, hstep.1]
      have hsum : plVotesSumPy (PyVal.dict kvs :: rest) =
          pyNumVal v + plVotesSumPy rest := by
        simp [plVotesSumPy, hlv]
      rw [hsum]
      ring
    · intro s hs
      rcases hrest.2 s hs with h | h
      · rcases hstep.2 s h with h2 | h2
        · exact Or.inl h2
        · exact Or.inr h2
      · exact Or.inr h

/-- C4: for a candidate record whose `total_votes` is an int and whose party
lines are dicts with numeric votes, `validate_candidate` reports the
"party line total exceeds candidate total" issue exactly when the sum of the
party-line votes is strictly greater than the declared total.  (The embedded
validator is a pure function of the candidate value, so the record itself is
left unmodified, as the claim states.) -/
theorem C4_exceeds_iff (fields : List (String × PyVal)) (rt : PyVal) (tv : Int)
    (pls : List PyVal)
    (htv : fields.lookup "total_votes" = some (.int tv))
    (hpl : fields.lookup "party_lines" = some (.list pls))
    (hnum : ∀ pl ∈ pls, plNumeric pl) :
    (msgExceeds ((fields.lookup "name").getD (.str "unknown"))
        (plVotesSumPy pls) (.int tv)
      ∈ validate_candidate (.dict fields) rt) ↔ tv < plVotesSumPy pls := by
  unfold validate_candidate
  dsimp only
  rw [htv, hpl]
  simp only [pyIsNumeric, Bool.not_true, Bool.false_eq_true, if_false]
  have hspec := plFoldl_spec ((fields.lookup "name").getD (.str "unknown"))
    pls hnum ⟨[], 0, []⟩
  have htot : (pls.foldl (plStep ((fields.lookup "name").getD (.str "unknown")))
      ⟨[], 0, []⟩).total = plVotesSumPy pls := by
    rw [hspec.1]
    ring
  constructor
  · intro hmem
    simp only [List.append_assoc, List.mem_append] at hmem
    rcases hmem with h | h | h | h
    · exact absurd (mem_ite_singleton h).1 (msgExceeds_ne_noName _ _ _ _)
    · exact absurd (mem_ite_singleton h).1 (msgExceeds_ne_negTotal _ _ _ _)
    · rcases hspec.2 _ h with h2 | h2
      · cases h2
      · exact absurd rfl (msgExceeds_notShape _ _ _ _ h2)
    · have := (mem_ite_singleton h).2
      simp only [pyNumVal] at this
      rw [htot] at this
      exact this
  · intro hlt
    have hc : pyNumVal (.int tv) <
        (pls.foldl (plStep ((fields.lookup "name").getD (.str "unknown")))
          ⟨[], 0, []⟩).total := by
      simp only [pyNumVal]
      rw [htot]
      exact hlt
    simp only [List.append_assoc, List.mem_append]
    refine Or.inr (Or.inr (Or.inr ?_))
    rw [if_pos hc, htot]
    exact List.mem_singleton.mpr rfl

theorem C4_witness :
    msgExceeds (.str "A") (plVotesSumPy c4PartyLines) (.int 3)
      ∈ validate_candidate (.dict c4Fields) (.str "Mayor") :=
  (C4_exceeds_iff c4Fields (.str "Mayor") 3 c4PartyLines rfl rfl
    (fun pl hp => by
      rw [List.mem_singleton.mp hp]
      exact ⟨_, .int 5, rfl, rfl, rfl⟩)).mpr (by decide)

end Elections
